import Mathlib

/-!
Shallow embedding of the CDP session layer of `causeway` (src/src/cdp.rs),
plus the Live Session Holder used by src/src/server.rs.

The session layer keeps one WebSocket connection to a browser debugging
endpoint.  `send` allocates a correlation id from an atomic counter,
registers a oneshot sender in a shared pending map, enqueues the command on
the writer task's mpsc queue, and awaits the oneshot receiver.  A reader
task classifies each inbound frame as a response (routed to the pending
sender of matching id) or an event (broadcast), and skips everything else.

Modelling conventions:
 * `Value` is an opaque stand-in for `serde_json::Value`; the session layer
   never inspects values, it only defaults missing ones to `Null`
   (cdp.rs lines 130 and 138).
 * JSON parsing (`serde_json::from_str`) is external; an inbound wire
   message is modelled post-parse: either a non-text frame, a text frame
   whose parse failed, or a parsed `CdpMessage`.
 * The oneshot sender stored for id `i` is modelled by the presence of `i`
   in `pending`; a `sender.send(r)` is modelled by appending `(i, r)` to
   `delivered`.  The caller's `response_rx.await` is the observation
   function `sendOutcome`.
 * The `AtomicU64` counter is a `Nat` kept below `2^64`, with the
   `fetch_add` wrap-around made explicit by `% 2^64`.
-/

/-- Opaque model of `serde_json::Value`. The session layer treats values as
black boxes, so a small inductive with decidable equality suffices. -/
inductive Value where
  | null
  | num (n : Int)
  | str (s : String)
deriving DecidableEq, Repr

/-- cdp.rs 28-32: `CdpErrorData { code: i64, message: String }`. -/
structure CdpErrorData where
  code : Int
  message : String
deriving DecidableEq, Repr

/-- cdp.rs 19-26: the inbound frame shape `CdpMessage`, every field optional. -/
structure CdpMessage where
  id : Option Nat
  method : Option String
  result : Option Value
  error : Option CdpErrorData
  params : Option Value
deriving DecidableEq, Repr

/-- cdp.rs 12-17: the outbound command envelope `CdpCommand`. -/
structure CdpCommand where
  id : Nat
  method : String
  params : Value
deriving DecidableEq, Repr

/-- cdp.rs 36-40: `CdpEvent { method, params }`. -/
structure CdpEvent where
  method : String
  params : Value
deriving DecidableEq, Repr

/-- cdp.rs 60-66: the error enum returned by the session layer. -/
inductive CdpError where
  | ConnectionFailed (msg : String)
  | SendFailed
  | ResponseError (code : Int) (message : String)
  | ResponseDropped
deriving DecidableEq, Repr

deriving instance DecidableEq for Except

/-- One inbound wire message as seen by the reader loop (cdp.rs 112-121),
modelled after parsing: `nonText` is a binary/ping/pong/close frame
(`_ => continue`), `malformed` is a text frame that serde failed to parse
(`Err(_) => continue`), `msg` is a successfully parsed `CdpMessage`. -/
inductive Frame where
  | nonText
  | malformed
  | msg (m : CdpMessage)
deriving DecidableEq, Repr

/-- State of one `CdpConnection` together with the observable effects of its
reader/writer tasks.  `pending` holds the ids whose oneshot sender is alive in
the `HashMap` (cdp.rs 46); `delivered` records every `sender.send` the reader
performed; `queue` is the content of the writer mpsc channel; `writerAlive`
says whether the mpsc receiver still exists (false once the writer task has
exited, making `cmd_sender.send` fail); `events` records every event handed
to the broadcast channel. -/
structure ConnState where
  nextId : Nat
  pending : List Nat
  delivered : List (Nat × Except CdpErrorData Value)
  queue : List CdpCommand
  writerAlive : Bool
  events : List CdpEvent
deriving DecidableEq, Repr

/-- cdp.rs 150-155: the state of a freshly connected `CdpConnection`
(`next_id: AtomicU64::new(1)`, empty pending map, empty queue, live writer). -/
def connectInit : ConnState :=
  { nextId := 1, pending := [], delivered := [], queue := [],
    writerAlive := true, events := [] }

/-- cdp.rs 127-131: the outcome the reader sends into the pending slot — the
error object if present, else the result defaulted to `Null`. -/
def respOutcome (m : CdpMessage) : Except CdpErrorData Value :=
  match m.error with
  | some e => Except.error e
  | none => Except.ok (m.result.getD Value.null)

/-- cdp.rs 112-141: one iteration of the reader loop on one inbound frame.
Non-text frames and unparsable text are skipped.  A parsed message with a
present `id` is routed to the pending sender of that id (removed from the map
and resolved); one with no `id` but a present `method` is broadcast as an
event; one with neither is ignored. -/
def readerStep (st : ConnState) (f : Frame) : ConnState :=
  match f with
  | Frame.nonText => st
  | Frame.malformed => st
  | Frame.msg m =>
    match m.id with
    | some i =>
      if i ∈ st.pending then
        { st with pending := st.pending.erase i,
                  delivered := st.delivered ++ [(i, respOutcome m)] }
      else st
    | none =>
      match m.method with
      | some mth =>
        { st with events := st.events ++ [⟨mth, m.params.getD Value.null⟩] }
      | none => st

/-- The reader loop over a list of inbound frames, in arrival order. -/
def readerRun (st : ConnState) (frames : List Frame) : ConnState :=
  frames.foldl readerStep st

/-- cdp.rs 142-148: what the reader task actually does after the read loop
exits (the WebSocket closed).  The statement there is `drop(writer_handle)`,
which only detaches the writer's `JoinHandle`; the pending map — kept alive by
the `CdpConnection`'s own `Arc` — is not touched, so no pending sender is
dropped or resolved. -/
def readerShutdown (st : ConnState) : ConnState := st

/-- cdp.rs 160-164: the first half of `send` — `fetch_add(1)` on the atomic
counter (wrapping at `2^64`) and insertion of the fresh oneshot sender into
the pending map.  Returns the updated state and the allocated id. -/
def sendAlloc (st : ConnState) : ConnState × Nat :=
  ({ st with nextId := (st.nextId + 1) % 2 ^ 64,
             pending := st.pending ++ [st.nextId] },
   st.nextId)

/-- cdp.rs 166-174: the second half of `send` — hand the command to the
writer queue.  `cmd_sender.send` fails (with `SendFailed`) exactly when the
writer task has exited and dropped the receiver; note the early `?` return
performs no cleanup of the pending entry. -/
def sendEnqueue (st : ConnState) (i : Nat) (method : String) (params : Value) :
    ConnState × Option CdpError :=
  if st.writerAlive then
    ({ st with queue := st.queue ++ [⟨i, method, params⟩] }, none)
  else
    (st, some CdpError.SendFailed)

/-- cdp.rs 159-175: the synchronous part of `send`, in source order —
allocate and register first, then enqueue.  Returns the state, the allocated
id, and the early-return error if the enqueue failed. -/
def sendCall (st : ConnState) (method : String) (params : Value) :
    ConnState × Nat × Option CdpError :=
  let (st1, i) := sendAlloc st
  let (st2, e) := sendEnqueue st1 i method params
  (st2, i, e)

/-- cdp.rs 177-181: mapping of the slot's resolution to `send`'s return
value — a protocol error object becomes `ResponseError {code, message}`. -/
def toSendResult : Except CdpErrorData Value → Except CdpError Value
  | Except.ok v => Except.ok v
  | Except.error e => Except.error (CdpError.ResponseError e.code e.message)

/-- First resolution delivered to the oneshot of id `i` (a oneshot receiver
observes at most one send). -/
def firstDelivery (ds : List (Nat × Except CdpErrorData Value)) (i : Nat) :
    Option (Except CdpErrorData Value) :=
  match ds with
  | [] => none
  | (j, r) :: rest => if j = i then some r else firstDelivery rest i

/-- cdp.rs 176-181: what the caller awaiting `response_rx` observes against a
connection state: a delivered resolution (mapped by `toSendResult`); still
suspended (`none`) while its sender is alive in the map; `ResponseDropped`
once the sender is gone without having sent. -/
def sendOutcome (st : ConnState) (i : Nat) : Option (Except CdpError Value) :=
  match firstDelivery st.delivered i with
  | some r => some (toSendResult r)
  | none =>
    if i ∈ st.pending then none
    else some (Except.error CdpError.ResponseDropped)

/-- The correlation id a frame carries, if it is a parsed message with one. -/
def frameId : Frame → Option Nat
  | Frame.msg m => m.id
  | _ => none

/-- Concrete connection state for exercising `correlation_correctness`: two
callers pending (ids 1 and 2), nothing delivered yet. -/
def c1st : ConnState := { connectInit with pending := [1, 2] }

/-- Frames arriving before caller 1's response: an event and caller 2's
response (out of request order). -/
def c1pre : List Frame :=
  [Frame.msg ⟨none, some "Page.loadEventFired", none, none, none⟩,
   Frame.msg ⟨some 2, none, some (Value.num 9), none, none⟩]

/-- Caller 1's own response frame. -/
def c1m : CdpMessage := ⟨some 1, none, some (Value.num 7), none, none⟩

/-- Frames arriving after caller 1's response. -/
def c1post : List Frame := [Frame.malformed]

/-- Iterated id allocation: `n` successive `fetch_add` allocations (the order
in which concurrent `send` calls hit the atomic counter), returning the final
state and the list of allocated ids. -/
def allocIds : ConnState → Nat → ConnState × List Nat
  | st, 0 => (st, [])
  | st, n + 1 =>
    let p1 := sendAlloc st
    let p2 := allocIds p1.1 n
    (p2.1, p1.2 :: p2.2)

/-- cdp.rs 197-206: the loop body of `execute_sequence`, instrumented with the
list of commands actually issued.  `sendFn` stands for one `send(conn, method,
params).await`; the `?` short-circuit is the `Except.error` branch.  The
accumulator is `last_result`, initialised to `Value::Null` by the caller. -/
def execSeqRun (sendFn : String → Value → Except CdpError Value) :
    List (String × Value) → Value → List (String × Value) × Except CdpError Value
  | [], last => ([], Except.ok last)
  | c :: rest, _ =>
    match sendFn c.1 c.2 with
    | Except.ok v =>
      let r := execSeqRun sendFn rest v
      (c :: r.1, r.2)
    | Except.error e => ([c], Except.error e)

/-- cdp.rs 197-206: `execute_sequence` — run the commands in order starting
from `last_result = Value::Null`, returning the final result. -/
def execute_sequence (sendFn : String → Value → Except CdpError Value)
    (commands : List (String × Value)) : Except CdpError Value :=
  (execSeqRun sendFn commands Value.null).2

/-- Send function for exercising `execute_sequence_spec`: fails on method
"bad", answers 7 otherwise. -/
def testSend : String → Value → Except CdpError Value :=
  fun m _ =>
    if m = "bad" then Except.error (CdpError.ResponseError (-32000) "boom")
    else Except.ok (Value.num 7)

/-- Connection state with one caller pending at id 1, for the C5
counterexample. -/
def c5st : ConnState := { connectInit with pending := [1] }

/-- Frame with BOTH a correlation id and a method present — the shape the
claim says must yield a decode error and be dropped. -/
def c5m : CdpMessage := ⟨some 1, some "Network.responseReceived", none, none, none⟩

/-- Connection state with one caller pending at id 3, for the C5 witness. -/
def c5wst : ConnState := { connectInit with pending := [3] }

/-- Response frame for id 3 (no method). -/
def c5wresp : CdpMessage := ⟨some 3, none, some (Value.num 7), none, none⟩

/-- Event frame (method, no id). -/
def c5wevt : CdpMessage :=
  ⟨none, some "Page.frameNavigated", none, none, some (Value.num 1)⟩

/-- Response frame carrying the id freshly allocated from `connectInit`, for
the C6 witness. -/
def c6m : CdpMessage := ⟨some 1, none, some (Value.num 2), none, none⟩

/-- Connection state with callers pending at ids 4 and 5, for the C7
witness. -/
def c7st : ConnState := { connectInit with pending := [4, 5] }

/-- Error response for id 4. -/
def c7m : CdpMessage := ⟨some 4, none, none, some ⟨-32601, "method not found"⟩, none⟩

/-- Connection state with three callers pending, for the C8 witness. -/
def c8st : ConnState := { connectInit with pending := [1, 2, 3] }

/-- Event frame arriving while the three responses are pending. -/
def c8m : CdpMessage := ⟨none, some "Runtime.consoleAPICalled", none, none, none⟩

/-- Modelled from the spec: the Live Session Holder.  server.rs imports
`LiveConnection` from `crate::cdp` (`use crate::cdp::{self, LiveConnection}`)
and drives it via `live.get()` and `live.swap(new_conn)` (server.rs 1147 and
1172), but its definition is not under src/.  Spec section 4.5: the holder
owns at most one current SessionHandle at a time, shared by all callers. -/
structure LiveConnection where
  installed : ConnState

/-- Modelled from the spec: `current()` "always returns the latest installed
handle; cheap, never blocks on network I/O" — a pure projection. -/
def LiveConnection.get (l : LiveConnection) : ConnState := l.installed

/-- Modelled from the spec: dropping a SessionHandle "abandons (fails) any of
its still-pending slots" (spec section 3, LiveSessionHolder) — every pending
oneshot sender is dropped unresolved and the handle's outbound queue dies
with it. -/
def dropHandle (st : ConnState) : ConnState :=
  { st with pending := [], writerAlive := false }

/-- Modelled from the spec: `swap(new_handle)` "installs atomically; the
previous handle is dropped, triggering its pending-slot cleanup".  Returns
the holder after the swap together with the dropped previous handle's
state. -/
def LiveConnection.swap (l : LiveConnection) (newConn : ConnState) :
    LiveConnection × ConnState :=
  (⟨newConn⟩, dropHandle l.installed)

/-- Holder whose installed handle has a caller pending at id 7, for the C9
witness. -/
def c9live : LiveConnection := ⟨{ connectInit with pending := [7] }⟩

/-! Helper lemmas about the reader loop. -/

lemma readerStep_other (st : ConnState) (f : Frame) (i : Nat)
    (h : frameId f ≠ some i) :
    (i ∈ (readerStep st f).pending ↔ i ∈ st.pending)
    ∧ (readerStep st f).delivered.filter (fun p => p.1 == i)
        = st.delivered.filter (fun p => p.1 == i) := by
  cases f with
  | nonText => exact ⟨Iff.rfl, rfl⟩
  | malformed => exact ⟨Iff.rfl, rfl⟩
  | msg m =>
    simp only [frameId] at h
    cases hid : m.id with
    | none =>
      cases hm : m.method with
      | none => simp [readerStep, hid, hm]
      | some mth => simp [readerStep, hid, hm]
    | some j =>
      have hji : j ≠ i := fun he => h (by rw [hid, he])
      by_cases hp : j ∈ st.pending
      · constructor
        · simp only [readerStep, hid, if_pos hp]
          exact List.mem_erase_of_ne (Ne.symm hji)
        · simp [readerStep, hid, hp, List.filter_append, hji]
      · simp [readerStep, hid, hp]

lemma readerStep_gone (st : ConnState) (f : Frame) (i : Nat)
    (h : i ∉ st.pending) :
    i ∉ (readerStep st f).pending
    ∧ (readerStep st f).delivered.filter (fun p => p.1 == i)
        = st.delivered.filter (fun p => p.1 == i) := by
  cases f with
  | nonText => exact ⟨h, rfl⟩
  | malformed => exact ⟨h, rfl⟩
  | msg m =>
    cases hid : m.id with
    | none =>
      cases hm : m.method with
      | none => simpa [readerStep, hid, hm] using h
      | some mth => simpa [readerStep, hid, hm] using h
    | some j =>
      by_cases hp : j ∈ st.pending
      · have hji : j ≠ i := fun he => h (he ▸ hp)
        constructor
        · simp only [readerStep, hid, if_pos hp]
          exact fun hm => h (List.mem_of_mem_erase hm)
        · simp [readerStep, hid, hp, List.filter_append, hji]
      · simpa [readerStep, hid, hp] using h

lemma readerStep_nodup (st : ConnState) (f : Frame)
    (h : st.pending.Nodup) : (readerStep st f).pending.Nodup := by
  cases f with
  | nonText => exact h
  | malformed => exact h
  | msg m =>
    cases hid : m.id with
    | none =>
      cases hm : m.method with
      | none => simpa [readerStep, hid, hm] using h
      | some mth => simpa [readerStep, hid, hm] using h
    | some j =>
      by_cases hp : j ∈ st.pending
      · simpa [readerStep, hid, hp] using h.erase j
      · simpa [readerStep, hid, hp] using h

lemma readerRun_other (st : ConnState) (frames : List Frame) (i : Nat)
    (h : ∀ f ∈ frames, frameId f ≠ some i) :
    (i ∈ (readerRun st frames).pending ↔ i ∈ st.pending)
    ∧ (readerRun st frames).delivered.filter (fun p => p.1 == i)
        = st.delivered.filter (fun p => p.1 == i) := by
  induction frames generalizing st with
  | nil => exact ⟨Iff.rfl, rfl⟩
  | cons f rest ih =>
    have h1 := readerStep_other st f i (h f (List.mem_cons_self f rest))
    have h2 := ih (readerStep st f) (fun g hg => h g (List.mem_cons_of_mem f hg))
    exact ⟨by rw [readerRun, List.foldl_cons] ; exact (h2.1).trans h1.1,
           by rw [readerRun, List.foldl_cons] ; rw [← h1.2] ; exact h2.2⟩

lemma readerRun_gone (st : ConnState) (frames : List Frame) (i : Nat)
    (h : i ∉ st.pending) :
    i ∉ (readerRun st frames).pending
    ∧ (readerRun st frames).delivered.filter (fun p => p.1 == i)
        = st.delivered.filter (fun p => p.1 == i) := by
  induction frames generalizing st with
  | nil => exact ⟨h, rfl⟩
  | cons f rest ih =>
    have h1 := readerStep_gone st f i h
    have h2 := ih (readerStep st f) h1.1
    exact ⟨by rw [readerRun, List.foldl_cons] ; exact h2.1,
           by rw [readerRun, List.foldl_cons] ; rw [← h1.2] ; exact h2.2⟩

lemma readerRun_nodup (st : ConnState) (frames : List Frame)
    (h : st.pending.Nodup) : (readerRun st frames).pending.Nodup := by
  induction frames generalizing st with
  | nil => exact h
  | cons f rest ih =>
    rw [readerRun, List.foldl_cons]
    exact ih (readerStep st f) (readerStep_nodup st f h)

lemma readerStep_resolve (st : ConnState) (m : CdpMessage) (i : Nat)
    (hid : m.id = some i) (hp : i ∈ st.pending) :
    readerStep st (Frame.msg m)
      = { st with pending := st.pending.erase i,
                  delivered := st.delivered ++ [(i, respOutcome m)] } := by
  simp [readerStep, hid, hp]

lemma firstDelivery_of_filter (ds : List (Nat × Except CdpErrorData Value))
    (i : Nat) (r : Except CdpErrorData Value)
    (h : ds.filter (fun p => p.1 == i) = [(i, r)]) :
    firstDelivery ds i = some r := by
  induction ds with
  | nil => simp at h
  | cons d rest ih =>
    by_cases hd : d.1 = i
    · rw [List.filter_cons_of_pos (by simpa using hd)] at h
      have hdr : d = (i, r) := (List.cons_eq_cons.mp h).1
      rw [firstDelivery]
      cases d with
      | mk j s => simp only [if_pos hd] ; exact congrArg some (congrArg Prod.snd hdr)
  
    · rw [List.filter_cons_of_neg (by simpa using hd)] at h
      rw [firstDelivery]
      cases d with
      | mk j s => simpa only [if_neg hd] using ih h

/-- C1: Correlation correctness — starting from any connection state in which
caller id `i` has a registered pending slot (distinct pending ids, no prior
delivery to `i`), if the inbound frame stream consists of arbitrary frames
that do not carry id `i`, then the response frame for `i`, then arbitrary
further frames, the reader delivers to slot `i` exactly the outcome of the
frame whose id is `i`, and the caller's `send` resolves with that outcome —
regardless of where in the arrival order the response sits. -/
theorem correlation_correctness (st : ConnState) (pre post : List Frame)
    (m : CdpMessage) (i : Nat)
    (hid : m.id = some i)
    (hp : i ∈ st.pending)
    (hnd : st.pending.Nodup)
    (hdel : st.delivered.filter (fun p => p.1 == i) = [])
    (hpre : ∀ f ∈ pre, frameId f ≠ some i) :
    (readerRun st (pre ++ Frame.msg m :: post)).delivered.filter
        (fun p => p.1 == i) = [(i, respOutcome m)]
    ∧ sendOutcome (readerRun st (pre ++ Frame.msg m :: post)) i
        = some (toSendResult (respOutcome m)) := by
  have hsplit : readerRun st (pre ++ Frame.msg m :: post)
      = readerRun (readerStep (readerRun st pre) (Frame.msg m)) post := by
    simp [readerRun, List.foldl_append]
  have hA := readerRun_other st pre i hpre
  have hpA : i ∈ (readerRun st pre).pending := hA.1.mpr hp
  have hndA : (readerRun st pre).pending.Nodup := readerRun_nodup st pre hnd
  have hdelA : (readerRun st pre).delivered.filter (fun p => p.1 == i) = [] :=
    hA.2.trans hdel
  have hB := readerStep_resolve (readerRun st pre) m i hid hpA
  have hgoneB : i ∉ (readerStep (readerRun st pre) (Frame.msg m)).pending := by
    rw [hB] ; exact hndA.not_mem_erase
  have hdelB : (readerStep (readerRun st pre) (Frame.msg m)).delivered.filter
      (fun p => p.1 == i) = [(i, respOutcome m)] := by
    rw [hB] ; simp [List.filter_append, hdelA]
  have hC := readerRun_gone (readerStep (readerRun st pre) (Frame.msg m)) post i hgoneB
  have hfin : (readerRun st (pre ++ Frame.msg m :: post)).delivered.filter
      (fun p => p.1 == i) = [(i, respOutcome m)] := by
    rw [hsplit] ; rw [hC.2] ; exact hdelB
  refine ⟨hfin, ?_⟩
  rw [sendOutcome, firstDelivery_of_filter _ _ _ hfin]

theorem correlation_correctness_witness :
    (readerRun c1st (c1pre ++ Frame.msg c1m :: c1post)).delivered.filter
        (fun p => p.1 == 1) = [(1, respOutcome c1m)]
    ∧ sendOutcome (readerRun c1st (c1pre ++ Frame.msg c1m :: c1post)) 1
        = some (toSendResult (respOutcome c1m)) :=
  correlation_correctness c1st c1pre c1post c1m 1 rfl (by decide) (by decide)
    (by decide) (by decide)

/-- C2: Abandonment on teardown — evidence of the code bug.  When the
WebSocket closes while a slot (id 1) is pending, the reader's post-loop
cleanup (cdp.rs 142-145, modelled by `readerShutdown`) leaves the slot in the
pending map with its sender alive, so the caller's `send` is still suspended
(`sendOutcome = none`) instead of resolving with `ResponseDropped` as the
claim — and the code's own comment "drop all pending senders" — requires. -/
theorem teardown_leaves_pending_unresolved :
    (readerShutdown { connectInit with pending := [1] }).pending = [1]
    ∧ sendOutcome (readerShutdown { connectInit with pending := [1] }) 1
        = none := by
  decide

lemma allocIds_ids (n : Nat) : ∀ st : ConnState, st.nextId + n ≤ 2 ^ 64 →
    (allocIds st n).2 = List.range' st.nextId n := by
  induction n with
  | zero => intro st _ ; rfl
  | succ m ih =>
    intro st h
    cases m with
    | zero => simp [allocIds, sendAlloc, List.range']
    | succ k =>
      norm_num at h
      have hmod : (st.nextId + 1) % 2 ^ 64 = st.nextId + 1 :=
        Nat.mod_eq_of_lt (by norm_num ; omega)
      have hnext : (sendAlloc st).1.nextId = st.nextId + 1 := hmod
      have hrec := ih (sendAlloc st).1 (by rw [hnext] ; norm_num ; omega)
      rw [hnext] at hrec
      calc (allocIds st (k + 1 + 1)).2
          = st.nextId :: (allocIds (sendAlloc st).1 (k + 1)).2 := by
            simp [allocIds, sendAlloc]
        _ = st.nextId :: List.range' (st.nextId + 1) (k + 1) := by rw [hrec]
        _ = List.range' st.nextId (k + 1 + 1) :=
            (List.range'_succ st.nextId (k + 1) 1).symm

/-- C3: Id allocation — on a fresh connection (`next_id` starts at 1), any
`n` allocations performed by `send` calls (in whatever order the atomic
`fetch_add` serializes them) hand out exactly the ids `1, 2, ..., n`:
starting at 1, strictly increasing, and pairwise distinct — so no id is
reused while a slot for it is pending. -/
theorem id_allocation (n : Nat) (hn : n < 2 ^ 64) :
    (allocIds connectInit n).2 = List.range' 1 n
    ∧ List.Pairwise (· < ·) (allocIds connectInit n).2
    ∧ (allocIds connectInit n).2.Nodup := by
  have h : (allocIds connectInit n).2 = List.range' 1 n := by
    have := allocIds_ids n connectInit (by simp [connectInit] ; omega)
    simpa [connectInit] using this
  refine ⟨h, ?_, ?_⟩
  · rw [h] ; exact List.pairwise_lt_range' 1 n
  · rw [h] ; exact List.nodup_range' 1 n

theorem id_allocation_witness :
    (allocIds connectInit 5).2 = List.range' 1 5
    ∧ List.Pairwise (· < ·) (allocIds connectInit 5).2
    ∧ (allocIds connectInit 5).2.Nodup :=
  id_allocation 5 (by decide)

lemma execSeqRun_ok_all (sendFn : String → Value → Except CdpError Value) :
    ∀ (cs : List (String × Value)) (last : Value),
      (∀ c ∈ cs, ∃ v, sendFn c.1 c.2 = Except.ok v) →
      (execSeqRun sendFn cs last).1 = cs := by
  intro cs
  induction cs with
  | nil => intro last _ ; rfl
  | cons c rest ih =>
    intro last hok
    obtain ⟨v, hv⟩ := hok c (List.mem_cons_self c rest)
    simp only [execSeqRun, hv]
    exact congrArg (c :: ·) (ih v (fun d hd => hok d (List.mem_cons_of_mem c hd)))

lemma execSeqRun_last (sendFn : String → Value → Except CdpError Value) :
    ∀ (cs : List (String × Value)) (c : String × Value) (v : Value) (last : Value),
      (∀ d ∈ cs, ∃ w, sendFn d.1 d.2 = Except.ok w) →
      sendFn c.1 c.2 = Except.ok v →
      (execSeqRun sendFn (cs ++ [c]) last).2 = Except.ok v := by
  intro cs
  induction cs with
  | nil =>
    intro c v last _ hc
    simp [execSeqRun, hc]
  | cons d rest ih =>
    intro c v last hok hc
    obtain ⟨w, hw⟩ := hok d (List.mem_cons_self d rest)
    simp only [List.cons_append, execSeqRun, hw]
    exact ih c v w (fun e he => hok e (List.mem_cons_of_mem d he)) hc

lemma execSeqRun_shortcircuit (sendFn : String → Value → Except CdpError Value) :
    ∀ (pre : List (String × Value)) (c : String × Value)
      (post : List (String × Value)) (e : CdpError) (last : Value),
      (∀ d ∈ pre, ∃ w, sendFn d.1 d.2 = Except.ok w) →
      sendFn c.1 c.2 = Except.error e →
      execSeqRun sendFn (pre ++ c :: post) last = (pre ++ [c], Except.error e) := by
  intro pre
  induction pre with
  | nil =>
    intro c post e last _ hc
    simp [execSeqRun, hc]
  | cons d rest ih =>
    intro c post e last hok hc
    obtain ⟨w, hw⟩ := hok d (List.mem_cons_self d rest)
    simp only [List.cons_append, execSeqRun, hw]
    have h := ih c post e w (fun f hf => hok f (List.mem_cons_of_mem d hf)) hc
    rw [List.append_eq, h]

/-- C4: Sequence execution — `execute_sequence` issues the commands strictly
in list order: if every command before `c` succeeds and `c` fails with `e`,
then exactly the commands up to and including `c` are issued (nothing after
`c` is ever sent) and the error returned is `c`'s error `e`; if all commands
succeed, every command is issued and the result is the last command's own
result. -/
theorem execute_sequence_spec (sendFn : String → Value → Except CdpError Value) :
    (∀ (pre : List (String × Value)) (c : String × Value)
       (post : List (String × Value)) (e : CdpError),
       (∀ d ∈ pre, ∃ w, sendFn d.1 d.2 = Except.ok w) →
       sendFn c.1 c.2 = Except.error e →
       (execSeqRun sendFn (pre ++ c :: post) Value.null).1 = pre ++ [c]
       ∧ execute_sequence sendFn (pre ++ c :: post) = Except.error e)
    ∧ (∀ (cs : List (String × Value)) (c : String × Value) (v : Value),
       (∀ d ∈ cs, ∃ w, sendFn d.1 d.2 = Except.ok w) →
       sendFn c.1 c.2 = Except.ok v →
       (execSeqRun sendFn (cs ++ [c]) Value.null).1 = cs ++ [c]
       ∧ execute_sequence sendFn (cs ++ [c]) = Except.ok v) := by
  constructor
  · intro pre c post e hok hc
    have h := execSeqRun_shortcircuit sendFn pre c post e Value.null hok hc
    exact ⟨by rw [h], by rw [execute_sequence, h]⟩
  · intro cs c v hok hc
    have hall : ∀ d ∈ cs ++ [c], ∃ w, sendFn d.1 d.2 = Except.ok w := by
      intro d hd
      rcases List.mem_append.mp hd with hd | hd
      · exact hok d hd
      · rcases List.mem_singleton.mp hd with rfl
        exact ⟨v, hc⟩
    exact ⟨execSeqRun_ok_all sendFn (cs ++ [c]) Value.null hall,
           execSeqRun_last sendFn cs c v Value.null hok hc⟩

theorem execute_sequence_spec_witness :
    ((execSeqRun testSend [("a", Value.null), ("bad", Value.null),
        ("c", Value.null)] Value.null).1 = [("a", Value.null), ("bad", Value.null)]
     ∧ execute_sequence testSend [("a", Value.null), ("bad", Value.null),
        ("c", Value.null)] = Except.error (CdpError.ResponseError (-32000) "boom")) := by
  have h := (execute_sequence_spec testSend).1 [("a", Value.null)]
    ("bad", Value.null) [("c", Value.null)] (CdpError.ResponseError (-32000) "boom")
    (by intro d hd ; rw [List.mem_singleton.mp hd] ; exact ⟨Value.num 7, rfl⟩) rfl
  simpa using h

/-- C5 counterexample: a parsed frame carrying both a present id and a
present method is NOT dropped by the reader (cdp.rs 124 tests only `id`): it
is routed as a Response and resolves pending slot 1, so the claim's "any
other shape yields a decode error under which the frame is dropped" is false
for this shape. -/
theorem frame_both_fields_not_dropped :
    readerStep c5st (Frame.msg c5m) ≠ c5st
    ∧ (readerStep c5st (Frame.msg c5m)).pending = []
    ∧ (readerStep c5st (Frame.msg c5m)).delivered = [(1, Except.ok Value.null)] := by
  decide

/-- C5 (amended): Wire-codec frame classification as the code implements it —
a frame with a present correlation id is treated as a Response regardless of
whether a method is present (resolving the matching pending slot, or ignored
if no slot matches); a frame with an absent id and a present method is an
Event; a frame with both absent, a body that fails structural parsing, or a
non-text frame is dropped with no effect (the reader continues, so the
connection is not torn down). -/
theorem frame_classification (st : ConnState) (m : CdpMessage) :
    (∀ i, m.id = some i → i ∈ st.pending →
        readerStep st (Frame.msg m)
          = { st with pending := st.pending.erase i,
                      delivered := st.delivered ++ [(i, respOutcome m)] })
    ∧ (∀ i, m.id = some i → i ∉ st.pending → readerStep st (Frame.msg m) = st)
    ∧ (∀ mth, m.id = none → m.method = some mth →
        readerStep st (Frame.msg m)
          = { st with events := st.events ++ [⟨mth, m.params.getD Value.null⟩] })
    ∧ (m.id = none → m.method = none → readerStep st (Frame.msg m) = st)
    ∧ readerStep st Frame.malformed = st
    ∧ readerStep st Frame.nonText = st := by
  refine ⟨?_, ?_, ?_, ?_, rfl, rfl⟩
  · intro i hid hp ; exact readerStep_resolve st m i hid hp
  · intro i hid hp ; simp [readerStep, hid, hp]
  · intro mth hid hm ; simp [readerStep, hid, hm]
  · intro hid hm ; simp [readerStep, hid, hm]

theorem frame_classification_witness :
    readerStep c5wst (Frame.msg c5wresp)
      = { c5wst with pending := c5wst.pending.erase 3,
                     delivered := c5wst.delivered ++ [(3, respOutcome c5wresp)] }
    ∧ readerStep c5wst (Frame.msg c5wevt)
      = { c5wst with events := c5wst.events
            ++ [⟨"Page.frameNavigated", c5wevt.params.getD Value.null⟩] } :=
  ⟨(frame_classification c5wst c5wresp).1 3 rfl (by decide),
   (frame_classification c5wst c5wevt).2.2.1 "Page.frameNavigated" rfl rfl⟩

/-- C6: Registration happens-before enqueue — `send` is, in source order, the
composition `sendAlloc` (fetch id, insert pending slot, cdp.rs 160-164) then
`sendEnqueue` (hand the command to the writer, cdp.rs 172-174), as packaged
by `sendCall`.  In the intermediate state reached after `sendAlloc` — where
the writer queue is still untouched, i.e. the enqueue has not happened — the
slot for the fresh id is already registered, so a response frame carrying
that id which arrives at that moment is delivered into the slot. -/
theorem registration_before_enqueue (st : ConnState) (m : CdpMessage)
    (hid : m.id = some (sendAlloc st).2) :
    (sendAlloc st).2 ∈ (sendAlloc st).1.pending
    ∧ (sendAlloc st).1.queue = st.queue
    ∧ (readerStep (sendAlloc st).1 (Frame.msg m)).delivered
        = (sendAlloc st).1.delivered ++ [((sendAlloc st).2, respOutcome m)]
    ∧ (∀ method params, (sendCall st method params).2.1 = (sendAlloc st).2) := by
  have hp : (sendAlloc st).2 ∈ (sendAlloc st).1.pending := by
    simp [sendAlloc]
  refine ⟨hp, rfl, ?_, fun method params => rfl⟩
  rw [readerStep_resolve _ m _ hid hp]

theorem registration_before_enqueue_witness :
    (sendAlloc connectInit).2 ∈ (sendAlloc connectInit).1.pending
    ∧ (sendAlloc connectInit).1.queue = connectInit.queue
    ∧ (readerStep (sendAlloc connectInit).1 (Frame.msg c6m)).delivered
        = (sendAlloc connectInit).1.delivered
            ++ [((sendAlloc connectInit).2, respOutcome c6m)]
    ∧ (∀ method params,
        (sendCall connectInit method params).2.1 = (sendAlloc connectInit).2) :=
  registration_before_enqueue connectInit c6m rfl

/-- C7: Protocol-error surfacing — when the response frame matched to pending
id `i` carries an error object `{code, message}`, the caller's `send`
resolves with `ResponseError {code, message}` (built from that same object,
not a transport failure), and the connection stays usable: the writer queue,
writer liveness, id counter and every other caller's pending slot are
untouched. -/
theorem protocol_error_surfaced (st : ConnState) (m : CdpMessage) (i : Nat)
    (e : CdpErrorData)
    (hid : m.id = some i) (herr : m.error = some e)
    (hp : i ∈ st.pending)
    (hdel : st.delivered.filter (fun p => p.1 == i) = []) :
    sendOutcome (readerStep st (Frame.msg m)) i
      = some (Except.error (CdpError.ResponseError e.code e.message))
    ∧ (readerStep st (Frame.msg m)).queue = st.queue
    ∧ (readerStep st (Frame.msg m)).writerAlive = st.writerAlive
    ∧ (readerStep st (Frame.msg m)).nextId = st.nextId
    ∧ ∀ j, j ≠ i →
        (j ∈ (readerStep st (Frame.msg m)).pending ↔ j ∈ st.pending) := by
  have hB := readerStep_resolve st m i hid hp
  have hout : respOutcome m = Except.error e := by
    rw [respOutcome, herr]
  have hfil : (readerStep st (Frame.msg m)).delivered.filter
      (fun p => p.1 == i) = [(i, Except.error e)] := by
    rw [hB] ; simp [List.filter_append, hdel, hout]
  refine ⟨?_, by rw [hB], by rw [hB], by rw [hB], ?_⟩
  · rw [sendOutcome, firstDelivery_of_filter _ _ _ hfil] ; rfl
  · intro j hj
    rw [hB]
    exact List.mem_erase_of_ne hj

theorem protocol_error_surfaced_witness :
    sendOutcome (readerStep c7st (Frame.msg c7m)) 4
      = some (Except.error (CdpError.ResponseError (-32601) "method not found"))
    ∧ (readerStep c7st (Frame.msg c7m)).queue = c7st.queue
    ∧ (readerStep c7st (Frame.msg c7m)).writerAlive = c7st.writerAlive
    ∧ (readerStep c7st (Frame.msg c7m)).nextId = c7st.nextId
    ∧ ∀ j, j ≠ 4 →
        (j ∈ (readerStep c7st (Frame.msg c7m)).pending ↔ j ∈ c7st.pending) :=
  protocol_error_surfaced c7st c7m 4 ⟨-32601, "method not found"⟩ rfl rfl
    (by decide) (by decide)

/-- C8: Event decoupling — an inbound Event frame (present method, absent id)
is appended to the event broadcast and nothing else happens: the pending map
is untouched (no response slot is resolved, no matter how many are pending),
no delivery is made, and the writer side is untouched. -/
theorem event_decoupling (st : ConnState) (m : CdpMessage) (mth : String)
    (hid : m.id = none) (hm : m.method = some mth) :
    readerStep st (Frame.msg m)
      = { st with events := st.events ++ [⟨mth, m.params.getD Value.null⟩] }
    ∧ (readerStep st (Frame.msg m)).pending = st.pending
    ∧ (readerStep st (Frame.msg m)).delivered = st.delivered := by
  have h : readerStep st (Frame.msg m)
      = { st with events := st.events ++ [⟨mth, m.params.getD Value.null⟩] } := by
    simp [readerStep, hid, hm]
  exact ⟨h, by rw [h], by rw [h]⟩

theorem event_decoupling_witness :
    readerStep c8st (Frame.msg c8m)
      = { c8st with events := c8st.events
            ++ [⟨"Runtime.consoleAPICalled", c8m.params.getD Value.null⟩] }
    ∧ (readerStep c8st (Frame.msg c8m)).pending = c8st.pending
    ∧ (readerStep c8st (Frame.msg c8m)).delivered = c8st.delivered :=
  event_decoupling c8st c8m "Runtime.consoleAPICalled" rfl rfl

lemma firstDelivery_none_of_filter (ds : List (Nat × Except CdpErrorData Value))
    (i : Nat) (h : ds.filter (fun p => p.1 == i) = []) :
    firstDelivery ds i = none := by
  induction ds with
  | nil => rfl
  | cons d rest ih =>
    by_cases hd : d.1 = i
    · rw [List.filter_cons_of_pos (by simpa using hd)] at h
      exact absurd h (by simp)
    · rw [List.filter_cons_of_neg (by simpa using hd)] at h
      rw [firstDelivery]
      cases d with
      | mk j s => simpa only [if_neg hd] using ih h

/-- C9: Live Session Holder contract — `get` (the spec's `current()`) on the
holder produced by `swap` returns exactly the newly installed handle, and the
dropped previous handle has every still-pending, not-yet-delivered slot `i`
abandoned: its caller's `send` resolves with `ResponseDropped`. -/
theorem live_holder_contract (l : LiveConnection) (n : ConnState) (i : Nat)
    (_hp : i ∈ l.get.pending)
    (hdel : l.get.delivered.filter (fun p => p.1 == i) = []) :
    ((l.swap n).1).get = n
    ∧ sendOutcome ((l.swap n).2) i
        = some (Except.error CdpError.ResponseDropped) := by
  refine ⟨rfl, ?_⟩
  have hfd : firstDelivery (dropHandle l.get).delivered i = none :=
    firstDelivery_none_of_filter _ i hdel
  rw [sendOutcome]
  rw [show ((l.swap n).2) = dropHandle l.get from rfl, hfd]
  simp [dropHandle]

theorem live_holder_contract_witness :
    ((c9live.swap connectInit).1).get = connectInit
    ∧ sendOutcome ((c9live.swap connectInit).2) 7
        = some (Except.error CdpError.ResponseDropped) :=
  live_holder_contract c9live connectInit 7 (by decide) (by decide)

/-- C10: No rollback of registration on enqueue failure — when the writer is
dead, `send` (its synchronous part `sendCall`) returns `SendFailed` via the
early `?` return, yet the freshly registered oneshot sender for the allocated
id is still present in the pending map afterwards. -/
theorem send_failed_keeps_slot (st : ConnState) (method : String)
    (params : Value) (hw : st.writerAlive = false) :
    (sendCall st method params).2.2 = some CdpError.SendFailed
    ∧ (sendCall st method params).2.1 ∈ (sendCall st method params).1.pending := by
  have h1 : (sendAlloc st).1.writerAlive = false := hw
  constructor
  · simp [sendCall, sendEnqueue, h1]
  · simp [sendCall, sendEnqueue, h1, sendAlloc, hw]

theorem send_failed_keeps_slot_witness :
    (sendCall { connectInit with writerAlive := false } "Page.navigate"
        Value.null).2.2 = some CdpError.SendFailed
    ∧ (sendCall { connectInit with writerAlive := false } "Page.navigate"
        Value.null).2.1
      ∈ (sendCall { connectInit with writerAlive := false } "Page.navigate"
        Value.null).1.pending :=
  send_failed_keeps_slot { connectInit with writerAlive := false }
    "Page.navigate" Value.null rfl
